import Mathlib

/-!
Verification of the NBA Analytics Suite's core numeric routines.

Shallow embedding of:
* the Elo rating update (`EloCalculator.expected_score` / `update_elo` in
  `src/nba_elo_calculator.py` and `src/app.py`),
* the playoff-series probability recursion
  (`calculate_series_probability_nba_format` in `src/app.py`),
* the brute-force Finals series recursion
  (`simulate_series_from_state` in `src/finals_series_probability.py`),
* the American-odds conversions
  (`odds_to_probability` / `probability_to_american_odds` in
  `src/betting_market_vs_models.py`, mirrored by `BettingOddsConverter` in
  `src/market_analysis_professional.py`),
* the enhanced K-factor schedule
  (`EnhancedEloCalculator.calculate_k_factor` in
  `src/enhanced_elo_calculator.py`).

Python floats are modelled as exact real numbers (ℝ) where transcendental
functions appear, and as exact rationals (ℚ) where the code only uses
field operations; Python ints are ℤ/ℕ.
-/

/-- Expected score for a team rated `rating_a` against one rated `rating_b`:
the code returns `1 / (1 + 10 ** ((rating_b - rating_a) / 400))`
(`EloCalculator.expected_score`, identical in `nba_elo_calculator.py`,
`app.py`, `enhanced_elo_calculator.py` and `finals_series_probability.py`). -/
noncomputable def expected_score (rating_a rating_b : ℝ) : ℝ :=
  1 / (1 + (10 : ℝ) ^ ((rating_b - rating_a) / 400))

/-- The actual-score pair of `update_elo`: the code sets
`actual_a, actual_b = 1, 0` when `score_a > score_b` and `0, 1` otherwise. -/
def actual_scores (score_a score_b : ℤ) : ℝ × ℝ :=
  if score_b < score_a then (1, 0) else (0, 1)

/-- Margin-of-victory multiplier of `update_elo`:
`math.log(abs(score_a - score_b) + 1) / math.log(20)`. -/
noncomputable def mov_multiplier (score_a score_b : ℤ) : ℝ :=
  Real.log (((score_a - score_b).natAbs : ℝ) + 1) / Real.log 20

/-- Rating update of `EloCalculator.update_elo` (`nba_elo_calculator.py`,
lines 32-58): returns the pair `(new_rating_a, new_rating_b)` where
`new_rating_x = rating_x + k_factor * mov_multiplier * (actual_x - expected_x)`.
The `app.py` variant computes the same two formulas with
`k_factor = get_k_factor(game_number, total_games)`. -/
noncomputable def update_elo (rating_a rating_b : ℝ) (score_a score_b : ℤ)
    (k_factor : ℝ) : ℝ × ℝ :=
  (rating_a + k_factor * mov_multiplier score_a score_b *
      ((actual_scores score_a score_b).1 - expected_score rating_a rating_b),
   rating_b + k_factor * mov_multiplier score_a score_b *
      ((actual_scores score_a score_b).2 - expected_score rating_b rating_a))

/-- K-factor kinds of the web app's `EloCalculator.get_k_factor` (`app.py`). -/
inductive KFactorType : Type
  | fixed
  | decreasing
  | other

/-- The web app's `EloCalculator.get_k_factor` (`app.py`, lines 62-70):
`fixed` returns the configured value, `decreasing` returns
`40 - 30 * (game_number / total_games)`, anything else returns 20.
(Real division by zero is 0 in Lean; in Python `total_games == 0` raises.) -/
noncomputable def get_k_factor (k_factor_type : KFactorType) (k_factor_value : ℝ)
    (game_number total_games : ℕ) : ℝ :=
  match k_factor_type with
  | .fixed => k_factor_value
  | .decreasing => 40 - 30 * ((game_number : ℝ) / (total_games : ℝ))
  | .other => 20

/-- State of the web app's `EloCalculator` (`app.py`, lines 52-113):
per-team ratings (`team_elos`), per-team win/loss records (`team_records`),
and the K-factor configuration fixed at construction. -/
structure AppEloState (Team : Type) : Type where
  team_elos : Team → ℝ
  wins : Team → ℕ
  losses : Team → ℕ
  k_factor_type : KFactorType
  k_factor_value : ℝ

/-- Fresh `EloCalculator` state: every team has the initial Elo (the
defaultdict default) and a 0-0 record. -/
def app_init_state (Team : Type) (initial_elo : ℝ) (kt : KFactorType)
    (kv : ℝ) : AppEloState Team :=
  { team_elos := fun _ => initial_elo
    wins := fun _ => 0
    losses := fun _ => 0
    k_factor_type := kt
    k_factor_value := kv }

/-- The web app's `EloCalculator.update_elo` (`app.py`, lines 76-113):
decides the winner by `score_a > score_b` (ties therefore credit `team_b`),
increments the winner's `wins` and the loser's `losses`, and updates both
ratings by `rating + k * mov_multiplier * (actual - expected)` with the
ratings read before either write. -/
noncomputable def app_update_elo {Team : Type} [DecidableEq Team]
    (s : AppEloState Team) (team_a team_b : Team) (score_a score_b : ℤ)
    (game_number total_games : ℕ) : AppEloState Team :=
  let rating_a := s.team_elos team_a
  let rating_b := s.team_elos team_b
  let a_won : Bool := score_b < score_a
  let new_wins := if a_won then Function.update s.wins team_a (s.wins team_a + 1)
    else Function.update s.wins team_b (s.wins team_b + 1)
  let new_losses := if a_won then Function.update s.losses team_b (s.losses team_b + 1)
    else Function.update s.losses team_a (s.losses team_a + 1)
  let k := get_k_factor s.k_factor_type s.k_factor_value game_number total_games
  let new_rating_a := rating_a + k * mov_multiplier score_a score_b *
      ((actual_scores score_a score_b).1 - expected_score rating_a rating_b)
  let new_rating_b := rating_b + k * mov_multiplier score_a score_b *
      ((actual_scores score_a score_b).2 - expected_score rating_b rating_a)
  { s with
    team_elos := Function.update (Function.update s.team_elos team_a new_rating_a)
      team_b new_rating_b
    wins := new_wins
    losses := new_losses }

/-- One processed game as fed to the web app's `update_elo`. -/
structure GameInput (Team : Type) : Type where
  team_a : Team
  team_b : Team
  score_a : ℤ
  score_b : ℤ
  game_number : ℕ
  total_games : ℕ

/-- Folding a list of games through the web app's `update_elo`. -/
noncomputable def apply_games {Team : Type} [DecidableEq Team]
    (s : AppEloState Team) (gs : List (GameInput Team)) : AppEloState Team :=
  gs.foldl (fun st g =>
    app_update_elo st g.team_a g.team_b g.score_a g.score_b
      g.game_number g.total_games) s

/-- The set `higher_seed_home_games = {1, 2, 5, 7}` of `app.py`'s
`calculate_series_probability_nba_format`: games of a best-of-7 series
hosted by the team holding home-court advantage (2-2-1-1-1 format). -/
def higher_seed_home_games (g : ℕ) : Bool :=
  g == 1 || g == 2 || g == 5 || g == 7

/-- The inner `dp(a_wins, b_wins, current_game)` recursion of
`calculate_series_probability_nba_format` (`app.py`, lines 178-234).
The Python guard `current_game > 7` bounds the recursion; here `fuel`
carries `8 - current_game` (so `fuel = 0` is exactly `current_game > 7`)
and makes the recursion structural; the `current_game` argument is kept for
the venue lookup. The memo table only caches values and does not change
the computed function, so it is not modelled. -/
def seriesDp (games_needed : ℕ) (prob_a_home prob_a_away : ℚ)
    (a_has_home_court : Bool) : ℕ → ℕ → ℕ → ℕ → ℚ
  | 0, a_wins, b_wins, _current_game =>
    if games_needed ≤ a_wins then 1
    else if games_needed ≤ b_wins then 0
    else 0
  | fuel + 1, a_wins, b_wins, current_game =>
    if games_needed ≤ a_wins then 1
    else if games_needed ≤ b_wins then 0
    else
        let a_at_home : Bool := if a_has_home_court
          then higher_seed_home_games current_game
          else !(higher_seed_home_games current_game)
        let prob_a_this_game := if a_at_home then prob_a_home else prob_a_away
        prob_a_this_game *
            seriesDp games_needed prob_a_home prob_a_away a_has_home_court
              fuel (a_wins + 1) b_wins (current_game + 1) +
          (1 - prob_a_this_game) *
            seriesDp games_needed prob_a_home prob_a_away a_has_home_court
              fuel a_wins (b_wins + 1) (current_game + 1)

/-- `calculate_series_probability_nba_format(wins_a, wins_b, prob_a_home,
prob_a_away, a_has_home_court, games_needed)` from `app.py`: short-circuits
when either side already has `games_needed` wins, otherwise runs the `dp`
recursion starting at `next_game_number = wins_a + wins_b + 1`. -/
def calculate_series_probability_nba_format (wins_a wins_b : ℕ)
    (prob_a_home prob_a_away : ℚ) (a_has_home_court : Bool)
    (games_needed : ℕ) : ℚ :=
  if games_needed ≤ wins_a then 1
  else if games_needed ≤ wins_b then 0
  else
    seriesDp games_needed prob_a_home prob_a_away a_has_home_court
      (8 - (wins_a + wins_b + 1)) wins_a wins_b (wins_a + wins_b + 1)

/-- Venue of one remaining game in `finals_series_probability.py`. -/
inductive SeriesLoc : Type
  | thunder_home
  | pacers_home

/-- `remaining_games_locations` of `calculate_series_probability` in
`finals_series_probability.py`: venues of games 2-7. -/
def remaining_games_locations : List SeriesLoc :=
  [.thunder_home, .pacers_home, .pacers_home,
   .thunder_home, .thunder_home, .thunder_home]

/-- `simulate_series_from_state(pacers_wins, thunder_wins, game_index)` from
`finals_series_probability.py` (lines 53-94): plain recursion returning the
probability that the Pacers win the series. The advancing `game_index` into
`remaining_games_locations` is modelled by consuming the list of venues
still to be played (`locs = []` is exactly
`game_index >= len(remaining_games_locations)`). -/
def simulate_series_from_state (thunder_home_prob pacers_home_prob : ℚ) :
    List SeriesLoc → ℕ → ℕ → ℚ
  | locs, pacers_wins, thunder_wins =>
    if pacers_wins = 4 then 1
    else if thunder_wins = 4 then 0
    else
      match locs with
      | [] => 0
      | loc :: rest =>
        let pacers_win_prob := match loc with
          | .thunder_home => 1 - thunder_home_prob
          | .pacers_home => pacers_home_prob
        pacers_win_prob *
            simulate_series_from_state thunder_home_prob pacers_home_prob
              rest (pacers_wins + 1) thunder_wins +
          (1 - pacers_win_prob) *
            simulate_series_from_state thunder_home_prob pacers_home_prob
              rest pacers_wins (thunder_wins + 1)

/-- Python `int()` applied to an exact rational: truncation toward zero. -/
def pyInt (q : ℚ) : ℤ :=
  if q < 0 then -(⌊-q⌋) else ⌊q⌋

/-- `odds_to_probability(american_odds)` from `betting_market_vs_models.py`
(identical to `BettingOddsConverter.american_to_probability`): for positive
odds `100 / (odds + 100)`, otherwise `abs(odds) / (abs(odds) + 100)`. -/
def odds_to_probability (american_odds : ℤ) : ℚ :=
  if 0 < american_odds then 100 / ((american_odds : ℚ) + 100)
  else ((|american_odds| : ℤ) : ℚ) / (((|american_odds| : ℤ) : ℚ) + 100)

/-- `probability_to_american_odds(prob)` from `betting_market_vs_models.py`
(identical to `BettingOddsConverter.probability_to_american` on inputs in
(0,1)): `int(-100 * prob / (1 - prob))` when `prob >= 0.5`, otherwise
`int(100 * (1 - prob) / prob)`; `int` truncates toward zero. -/
def probability_to_american_odds (prob : ℚ) : ℤ :=
  if 1/2 ≤ prob then pyInt (-100 * prob / (1 - prob))
  else pyInt (100 * (1 - prob) / prob)

/-- `EnhancedEloCalculator.calculate_k_factor(game_number, total_games,
is_playoffs)` from `enhanced_elo_calculator.py` (lines 54-65):
`base_k = initial_k * 1.5` in playoffs, else `initial_k`;
`progress = game_number / max(total_games, 1)`;
`k = base_k * (1 - progress * 0.75) + min_k * progress * 0.75`;
returns `max(k, min_k)`. -/
def calculate_k_factor (initial_k min_k : ℚ) (game_number total_games : ℕ)
    (is_playoffs : Bool) : ℚ :=
  let base_k := if is_playoffs then initial_k * 1.5 else initial_k
  let progress : ℚ := (game_number : ℚ) / ((max total_games 1 : ℕ) : ℚ)
  let k := base_k * (1 - progress * 0.75) + min_k * progress * 0.75
  max k min_k

/-- The two independently computed expected scores of one game sum to 1:
with `t = 10 ^ ((b - a) / 400) > 0` the opposite direction uses `t⁻¹` and
`1 / (1 + t) + 1 / (1 + t⁻¹) = 1`. -/
lemma expected_score_compl (a b : ℝ) :
    expected_score a b + expected_score b a = 1 := by
  unfold expected_score
  have hneg : (a - b) / 400 = -((b - a) / 400) := by ring
  rw [hneg, Real.rpow_neg (by norm_num : (0:ℝ) ≤ 10)]
  have hpos : (0:ℝ) < (10 : ℝ) ^ ((b - a) / 400) :=
    Real.rpow_pos_of_pos (by norm_num) _
  have h0 : (10 : ℝ) ^ ((b - a) / 400) ≠ 0 := ne_of_gt hpos
  have h1 : (1:ℝ) + (10 : ℝ) ^ ((b - a) / 400) ≠ 0 := by positivity
  have h2 : (1:ℝ) + ((10 : ℝ) ^ ((b - a) / 400))⁻¹ ≠ 0 := by positivity
  field_simp
  ring

/-- The binary actual scores of one game sum to 1 in both branches. -/
lemma actual_scores_sum (score_a score_b : ℤ) :
    (actual_scores score_a score_b).1 + (actual_scores score_a score_b).2 = 1 := by
  unfold actual_scores
  split <;> norm_num

/-- A tied game has margin-of-victory multiplier `log(0 + 1) / log(20) = 0`. -/
lemma mov_multiplier_self (s : ℤ) : mov_multiplier s s = 0 := by
  unfold mov_multiplier
  simp

/-- C2: for all ratings `a` and `b`, the two expected scores — each computed
independently as `1 / (1 + 10 ^ ((opponent - self) / 400))`, not as one
minus the other — sum to exactly 1. -/
theorem expected_score_complementarity (a b : ℝ) :
    expected_score a b + expected_score b a = 1 :=
  expected_score_compl a b

/-- C1: a single `update_elo` rating update is zero-sum — the home delta
plus the away delta is exactly 0, for any ratings, scores and K-factor,
because both deltas share the factor `k * mov_multiplier` and
`actual_a + actual_b = 1 = expected_a + expected_b`. -/
theorem update_zero_sum (rating_a rating_b : ℝ) (score_a score_b : ℤ)
    (k_factor : ℝ) :
    ((update_elo rating_a rating_b score_a score_b k_factor).1 - rating_a) +
      ((update_elo rating_a rating_b score_a score_b k_factor).2 - rating_b) = 0 := by
  have he := expected_score_compl rating_a rating_b
  have ha := actual_scores_sum score_a score_b
  unfold update_elo
  dsimp only
  linear_combination (k_factor * mov_multiplier score_a score_b) * ha -
    (k_factor * mov_multiplier score_a score_b) * he

/-- C8: a tied score is scored as an away win (`actual = (0, 1)`, because
the win test is the strict `score_a > score_b`), while the margin-of-victory
multiplier `log(0 + 1) / log(20) = 0` leaves both ratings exactly unchanged. -/
theorem tied_game_scored_as_away_win_no_rating_change
    (rating_a rating_b k_factor : ℝ) (s : ℤ) :
    actual_scores s s = (0, 1) ∧ mov_multiplier s s = 0 ∧
      update_elo rating_a rating_b s s k_factor = (rating_a, rating_b) := by
  refine ⟨?_, mov_multiplier_self s, ?_⟩
  · unfold actual_scores
    simp
  · unfold update_elo
    rw [mov_multiplier_self s]
    ring_nf

/-- C3: the series function short-circuits at the boundary — it returns
exactly 1 when side A already has at least `games_needed` wins and exactly
0 when side B does (the other side being any valid in-progress count). -/
theorem series_boundary_short_circuit (games_needed x wa wb : ℕ)
    (pah paa : ℚ) (hc : Bool) (_h1 : 1 ≤ games_needed) (hx : x < games_needed)
    (hwa : games_needed ≤ wa) (hwb : games_needed ≤ wb) :
    calculate_series_probability_nba_format wa x pah paa hc games_needed = 1 ∧
      calculate_series_probability_nba_format x wb pah paa hc games_needed = 0 := by
  unfold calculate_series_probability_nba_format
  refine ⟨?_, ?_⟩
  · rw [if_pos hwa]
  · rw [if_neg (by omega), if_pos hwb]

/-- Concrete instance of `series_boundary_short_circuit` at
`games_needed = 4`, `x = 2`, `wa = 4`, `wb = 5`. -/
theorem series_boundary_short_circuit_witness :
    ((1:ℕ) ≤ 4 ∧ (2:ℕ) < 4 ∧ (4:ℕ) ≤ 4 ∧ (4:ℕ) ≤ 5) ∧
      (calculate_series_probability_nba_format 4 2 (61/100) (39/100) true 4 = 1 ∧
        calculate_series_probability_nba_format 2 5 (61/100) (39/100) true 4 = 0) :=
  ⟨by decide, series_boundary_short_circuit 4 2 4 5 (61/100) (39/100) true
    (by decide) (by decide) (by decide) (by decide)⟩

/-- C4 fails as stated: at 1-0 for the road side with per-game
probabilities 0.61 (home-court holder at home) and 0.39 (holder away), the
memoized recursion of `app.py` (holder home in games {1,2,5,7}, so game 6
at the road side's arena) does not equal the brute-force recursion of
`finals_series_probability.py`, whose hardcoded venue list
`[home, away, away, home, home, home]` puts game 6 at the holder's arena:
the values are 0.66102483061 and 0.58755836919. -/
theorem series_memo_vs_bruteforce_differ :
    calculate_series_probability_nba_format 1 0 (61/100) (39/100) false 4 ≠
      simulate_series_from_state (61/100) (61/100)
        remaining_games_locations 1 0 := by
  norm_num [calculate_series_probability_nba_format, seriesDp,
    higher_seed_home_games, simulate_series_from_state,
    remaining_games_locations]

/-- C4 amended: the memoized recursion agrees with the brute-force
recursion once the latter is run on the venue list actually induced by
`app.py`'s 2-2-1-1-1 pattern for games 2-7, namely
`[home, away, away, home, away, home]` (game 6 at the road side's arena). -/
theorem series_memo_eq_bruteforce_matching_pattern :
    calculate_series_probability_nba_format 1 0 (61/100) (39/100) false 4 =
      simulate_series_from_state (61/100) (61/100)
        [.thunder_home, .pacers_home, .pacers_home,
         .thunder_home, .pacers_home, .thunder_home] 1 0 := by
  norm_num [calculate_series_probability_nba_format, seriesDp,
    higher_seed_home_games, simulate_series_from_state]

/-- Complementarity of the `dp` recursion: along any reachable state
(`a_wins + b_wins + 1 = current_game`, fuel tracking `8 - current_game`,
neither side past `games_needed ≤ 4`), the value for side A plus the value
for side B computed from the mirrored call sum to 1. -/
lemma seriesDp_compl (needed : ℕ) (pah paa : ℚ) (hc : Bool) (hn : needed ≤ 4) :
    ∀ fuel a b g, a + b + 1 = g → g + fuel = 8 → a ≤ needed → b ≤ needed →
      ¬(a = needed ∧ b = needed) →
      seriesDp needed pah paa hc fuel a b g +
        seriesDp needed (1 - paa) (1 - pah) (!hc) fuel b a g = 1 := by
  intro fuel
  induction fuel with
  | zero =>
    intro a b g hg hfuel ha hb hab
    have h4 : needed = 4 := by omega
    subst h4
    rcases (by omega : a = 4 ∧ b = 3 ∨ a = 3 ∧ b = 4) with ⟨rfl, rfl⟩ | ⟨rfl, rfl⟩ <;>
      norm_num [seriesDp]
  | succ fuel ih =>
    intro a b g hg hfuel ha hb hab
    by_cases hA : needed ≤ a
    · have hb' : ¬ needed ≤ b := by omega
      rw [seriesDp, seriesDp, if_pos hA, if_neg hb', if_pos hA]
      ring
    · by_cases hB : needed ≤ b
      · rw [seriesDp, seriesDp, if_neg hA, if_pos hB, if_pos hB]
        ring
      · rw [seriesDp, seriesDp, if_neg hA, if_neg hB, if_neg hB, if_neg hA]
        have ih1 := ih (a + 1) b (g + 1) (by omega) (by omega) (by omega)
          (by omega) (by omega)
        have ih2 := ih a (b + 1) (g + 1) (by omega) (by omega) (by omega)
          (by omega) (by omega)
        cases hc with
        | false =>
          simp only [Bool.not_false] at ih1 ih2
          cases hh : higher_seed_home_games g with
          | false =>
            simp only [hh, Bool.not_false, Bool.not_true]
            norm_num
            linear_combination pah * ih1 + (1 - pah) * ih2
          | true =>
            simp only [hh, Bool.not_false, Bool.not_true]
            norm_num
            linear_combination paa * ih1 + (1 - paa) * ih2
        | true =>
          simp only [Bool.not_true] at ih1 ih2
          cases hh : higher_seed_home_games g with
          | false =>
            simp only [hh, Bool.not_false, Bool.not_true]
            norm_num
            linear_combination paa * ih1 + (1 - paa) * ih2
          | true =>
            simp only [hh, Bool.not_false, Bool.not_true]
            norm_num
            linear_combination pah * ih1 + (1 - pah) * ih2

/-- C5 fails as stated for arbitrary `winsNeeded`: at `games_needed = 5`
the in-progress state 4-4 needs a ninth game, but the recursion's hardcoded
`current_game > 7` cutoff returns 0 for both the call and its mirrored
call, so the two complementary series probabilities sum to 0, not 1. -/
theorem series_complementarity_fails_needed_five :
    calculate_series_probability_nba_format 4 4 (1/2) (1/2) true 5 +
      calculate_series_probability_nba_format 4 4 (1 - 1/2) (1 - 1/2) false 5 ≠ 1 := by
  norm_num [calculate_series_probability_nba_format, seriesDp]

/-- C5 amended: for `games_needed ≤ 4` (in particular the best-of-7 value
4), every in-progress state and all per-game probabilities satisfy
complementarity — the probability for side A plus the probability computed
for side B from the mirrored state (wins swapped, per-game probabilities
complemented, home-court flag flipped) is exactly 1. -/
theorem series_complementarity (games_needed wa wb : ℕ) (pah paa : ℚ)
    (hc : Bool) (hn : games_needed ≤ 4) (ha : wa < games_needed)
    (hb : wb < games_needed) :
    calculate_series_probability_nba_format wa wb pah paa hc games_needed +
      calculate_series_probability_nba_format wb wa (1 - paa) (1 - pah) (!hc)
        games_needed = 1 := by
  unfold calculate_series_probability_nba_format
  simp only [if_neg (Nat.not_le.mpr ha), if_neg (Nat.not_le.mpr hb)]
  have hcomm : wb + wa + 1 = wa + wb + 1 := by omega
  rw [hcomm]
  exact seriesDp_compl games_needed pah paa hc hn (8 - (wa + wb + 1)) wa wb
    (wa + wb + 1) (by omega) (by omega) (by omega) (by omega) (by omega)

/-- Concrete instance of `series_complementarity` at the Finals scenario
state 1-0 with probabilities 0.61 and 0.39. -/
theorem series_complementarity_witness :
    ((4:ℕ) ≤ 4 ∧ (1:ℕ) < 4 ∧ (0:ℕ) < 4) ∧
      (calculate_series_probability_nba_format 1 0 (61/100) (39/100) false 4 +
        calculate_series_probability_nba_format 0 1 (1 - 39/100) (1 - 61/100)
          (!false) 4 = 1) :=
  ⟨by decide, series_complementarity 4 1 0 (61/100) (39/100) false
    (by decide) (by decide) (by decide)⟩

/-- A side that wins every remaining game (per-game probability 1 at either
venue) wins the series, as long as the recursion budget `fuel` reaches the
required number of wins. -/
lemma seriesDp_sure_win (needed : ℕ) (hc : Bool) :
    ∀ fuel a b g, b < needed → needed - a ≤ fuel →
      seriesDp needed 1 1 hc fuel a b g = 1 := by
  intro fuel
  induction fuel with
  | zero =>
    intro a b g hb hfuel
    have hA : needed ≤ a := by omega
    rw [seriesDp, if_pos hA]
  | succ fuel ih =>
    intro a b g hb hfuel
    by_cases hA : needed ≤ a
    · rw [seriesDp, if_pos hA]
    · rw [seriesDp, if_neg hA, if_neg (Nat.not_le.mpr hb)]
      have ih1 := ih (a + 1) b (g + 1) hb (by omega)
      simp only [ite_self, ih1]
      ring

/-- C9 fails as stated: the model does not support every `winsNeeded ≥ 1`.
At `games_needed = 5` from the in-progress state 4-4, a side winning every
game with probability 1 should take the series in game 9, but the hardcoded
`current_game > 7` cutoff terminates the recursion and returns probability
0 for the undecided series. -/
theorem series_needed_five_loses_mass :
    calculate_series_probability_nba_format 4 4 1 1 true 5 = 0 := by
  norm_num [calculate_series_probability_nba_format, seriesDp]

/-- C9 amended: the recursion supports `winsNeeded ≤ 4` only. For
`1 ≤ games_needed ≤ 4` the 7-game cutoff covers the at most
`2 * games_needed - 1` games of the series: from every in-progress state a
side with per-game probability 1 wins the series with probability exactly 1
(no probability mass is lost to the cutoff). -/
theorem series_sure_winner_needed_le_four (games_needed wa wb : ℕ)
    (hc : Bool) (h1 : 1 ≤ games_needed) (h4 : games_needed ≤ 4)
    (ha : wa < games_needed) (hb : wb < games_needed) :
    calculate_series_probability_nba_format wa wb 1 1 hc games_needed = 1 := by
  unfold calculate_series_probability_nba_format
  simp only [if_neg (Nat.not_le.mpr ha), if_neg (Nat.not_le.mpr hb)]
  exact seriesDp_sure_win games_needed hc (8 - (wa + wb + 1)) wa wb
    (wa + wb + 1) hb (by omega)

/-- Concrete instance of `series_sure_winner_needed_le_four` for a
best-of-3 series (`games_needed = 2`) at 1-0. -/
theorem series_sure_winner_needed_le_four_witness :
    ((1:ℕ) ≤ 2 ∧ (2:ℕ) ≤ 4 ∧ (1:ℕ) < 2 ∧ (0:ℕ) < 2) ∧
      calculate_series_probability_nba_format 1 0 1 1 true 2 = 1 :=
  ⟨by decide, series_sure_winner_needed_le_four 2 1 0 true
    (by decide) (by decide) (by decide) (by decide)⟩

/-- C6 fails as stated: at `gameIndex = totalGames` the schedule does not
return `Kmin`. With `Kstart = 40`, `Kmin = 10` at game 82 of 82 the
interpolation `40 * (1 - 0.75) + 10 * 0.75 = 17.5` is returned, not 10:
the line only covers 75% of the way from `Kstart` to `Kmin`. -/
theorem k_factor_not_min_at_end :
    calculate_k_factor 40 10 82 82 false ≠ 10 := by
  norm_num [calculate_k_factor]

/-- C6 amended: the schedule interpolates linearly from `Kstart` at
`gameIndex = 0` to `0.25 * Kstart + 0.75 * Kmin` (not `Kmin`) at
`gameIndex = totalGames`, never returns below `Kmin` (the `max` floor), and
at `totalGames = 0` the `max(total_games, 1)` guard avoids division by zero
and returns `Kstart` for `gameIndex = 0`. -/
theorem k_factor_schedule (K m : ℚ) (g tg : ℕ) (pfs : Bool)
    (hm : m ≤ K) (htg : 0 < tg) :
    calculate_k_factor K m 0 tg false = K ∧
      calculate_k_factor K m tg tg false = K / 4 + 3 * m / 4 ∧
      calculate_k_factor K m 0 0 false = K ∧
      m ≤ calculate_k_factor K m g tg pfs := by
  refine ⟨?_, ?_, ?_, ?_⟩
  · simp only [calculate_k_factor]
    norm_num
    exact hm
  · simp only [calculate_k_factor]
    have hmax : max tg 1 = tg := max_eq_left htg
    rw [hmax]
    have htg0 : ((tg : ℚ)) ≠ 0 := Nat.cast_ne_zero.mpr (by omega)
    rw [div_self htg0]
    norm_num
    rw [max_eq_left (by linarith)]
    ring
  · simp only [calculate_k_factor]
    norm_num
    exact hm
  · simp only [calculate_k_factor]
    exact le_max_right _ _

/-- Concrete instance of `k_factor_schedule` at `Kstart = 40`, `Kmin = 10`,
an 82-game season. -/
theorem k_factor_schedule_witness :
    ((10:ℚ) ≤ 40 ∧ (0:ℕ) < 82) ∧
      (calculate_k_factor 40 10 0 82 false = 40 ∧
        calculate_k_factor 40 10 82 82 false = 40 / 4 + 3 * 10 / 4 ∧
        calculate_k_factor 40 10 0 0 false = 40 ∧
        (10:ℚ) ≤ calculate_k_factor 40 10 50 82 true) :=
  ⟨⟨by norm_num, by decide⟩,
    k_factor_schedule 40 10 50 82 true (by norm_num) (by decide)⟩

/-- C7 fails as stated: the round trip at `+100` is off by 200, not at most
1. `americanToProbability(100) = 1/2`, which the `prob >= 0.5` branch sends
to `-100`, the equivalent even-money quote on the other side of zero. -/
theorem odds_roundtrip_plus100_fails :
    ¬ |probability_to_american_odds (odds_to_probability 100) - 100| ≤ 1 := by
  norm_num [odds_to_probability, probability_to_american_odds, pyInt]

/-- C7 amended: the conversion truncates toward zero (Python `int`) the
value `-100 * prob / (1 - prob)` for `prob ≥ 0.5` and
`100 * (1 - prob) / prob` otherwise; the round trip is exact for `+150`
and `-200`, while `+100` maps to `-100` (a difference of 200, the two
representations of even money). -/
theorem odds_roundtrip_values :
    probability_to_american_odds (odds_to_probability 150) = 150 ∧
      probability_to_american_odds (odds_to_probability (-200)) = -200 ∧
      probability_to_american_odds (odds_to_probability 100) = -100 := by
  norm_num [odds_to_probability, probability_to_american_odds, pyInt]

/-- Incrementing one entry of a tally raises its total by exactly 1. -/
lemma sum_update_add_one {α : Type} [Fintype α] [DecidableEq α]
    (f : α → ℕ) (i : α) :
    (∑ t, Function.update f i (f i + 1) t) = (∑ t, f t) + 1 := by
  rw [Finset.sum_update_of_mem (Finset.mem_univ i),
    Finset.sum_eq_sum_diff_singleton_add (Finset.mem_univ i) f]
  omega

/-- Each `update_elo` call raises the total win count by exactly 1. -/
lemma app_update_wins_sum {Team : Type} [Fintype Team] [DecidableEq Team]
    (s : AppEloState Team) (ta tb : Team) (sa sb : ℤ) (gn tg : ℕ) :
    (∑ t, (app_update_elo s ta tb sa sb gn tg).wins t) = (∑ t, s.wins t) + 1 := by
  by_cases h : sb < sa <;> simp [app_update_elo, h, sum_update_add_one]

/-- Each `update_elo` call raises the total loss count by exactly 1. -/
lemma app_update_losses_sum {Team : Type} [Fintype Team] [DecidableEq Team]
    (s : AppEloState Team) (ta tb : Team) (sa sb : ℤ) (gn tg : ℕ) :
    (∑ t, (app_update_elo s ta tb sa sb gn tg).losses t) =
      (∑ t, s.losses t) + 1 := by
  by_cases h : sb < sa <;> simp [app_update_elo, h, sum_update_add_one]

/-- Unfolding `apply_games` one game at a time. -/
lemma apply_games_cons {Team : Type} [DecidableEq Team] (s : AppEloState Team)
    (g : GameInput Team) (gs : List (GameInput Team)) :
    apply_games s (g :: gs) =
      apply_games (app_update_elo s g.team_a g.team_b g.score_a g.score_b
        g.game_number g.total_games) gs := rfl

/-- Processing `n` games adds `n` to the total win count. -/
lemma apply_games_wins_sum {Team : Type} [Fintype Team] [DecidableEq Team]
    (gs : List (GameInput Team)) :
    ∀ s : AppEloState Team,
      (∑ t, (apply_games s gs).wins t) = (∑ t, s.wins t) + gs.length := by
  induction gs with
  | nil => intro s; simp [apply_games]
  | cons g gs ih =>
    intro s
    rw [apply_games_cons, ih, app_update_wins_sum]
    simp only [List.length_cons]
    omega

/-- Processing `n` games adds `n` to the total loss count. -/
lemma apply_games_losses_sum {Team : Type} [Fintype Team] [DecidableEq Team]
    (gs : List (GameInput Team)) :
    ∀ s : AppEloState Team,
      (∑ t, (apply_games s gs).losses t) = (∑ t, s.losses t) + gs.length := by
  induction gs with
  | nil => intro s; simp [apply_games]
  | cons g gs ih =>
    intro s
    rw [apply_games_cons, ih, app_update_losses_sum]
    simp only [List.length_cons]
    omega

/-- C10: every `update_elo` call of the web app's `EloCalculator` credits
exactly one win and one loss — so after any sequence of `n` calls starting
from a fresh state, the total wins and the total losses over all teams both
equal `n`; on a tied score the away team (`team_b`) is credited the win
even though the ratings are left unchanged by the zero margin-of-victory
multiplier. -/
theorem records_sum_invariant {Team : Type} [DecidableEq Team] [Fintype Team]
    (initial_elo kv : ℝ) (kt : KFactorType) (gs : List (GameInput Team)) :
    (∑ t, (apply_games (app_init_state Team initial_elo kt kv) gs).wins t)
        = gs.length ∧
      (∑ t, (apply_games (app_init_state Team initial_elo kt kv) gs).losses t)
        = gs.length ∧
      (∀ s : AppEloState Team, ∀ ta tb : Team, ∀ sa sb : ℤ, ∀ gn tg : ℕ,
        (∑ t, (app_update_elo s ta tb sa sb gn tg).wins t)
            = (∑ t, s.wins t) + 1 ∧
          (∑ t, (app_update_elo s ta tb sa sb gn tg).losses t)
            = (∑ t, s.losses t) + 1) ∧
      (∀ s : AppEloState Team, ∀ ta tb : Team, ∀ v : ℤ, ∀ gn tg : ℕ,
        (app_update_elo s ta tb v v gn tg).wins tb = s.wins tb + 1 ∧
          (app_update_elo s ta tb v v gn tg).team_elos = s.team_elos) := by
  refine ⟨?_, ?_, fun s ta tb sa sb gn tg =>
      ⟨app_update_wins_sum s ta tb sa sb gn tg,
        app_update_losses_sum s ta tb sa sb gn tg⟩,
    fun s ta tb v gn tg => ⟨?_, ?_⟩⟩
  · rw [apply_games_wins_sum]
    simp [app_init_state]
  · rw [apply_games_losses_sum]
    simp [app_init_state]
  · simp [app_update_elo]
  · simp [app_update_elo, mov_multiplier_self, Function.update_eq_self]

/-- Concrete instance of `records_sum_invariant`: two teams, one tied game
followed by one decisive game. -/
theorem records_sum_invariant_witness :
    (∑ t, (apply_games (app_init_state (Fin 2) 1000 KFactorType.fixed 20)
        [⟨0, 1, 100, 100, 1, 2⟩, ⟨0, 1, 110, 90, 2, 2⟩]).wins t) = 2 ∧
      (∑ t, (apply_games (app_init_state (Fin 2) 1000 KFactorType.fixed 20)
        [⟨0, 1, 100, 100, 1, 2⟩, ⟨0, 1, 110, 90, 2, 2⟩]).losses t) = 2 :=
  ⟨(records_sum_invariant 1000 20 KFactorType.fixed
      [⟨0, 1, 100, 100, 1, 2⟩, ⟨0, 1, 110, 90, 2, 2⟩]).1,
    (records_sum_invariant 1000 20 KFactorType.fixed
      [⟨0, 1, 100, 100, 1, 2⟩, ⟨0, 1, 110, 90, 2, 2⟩]).2.1⟩
